import Mathlib

/-!
Shallow embedding of the bsv-wasm transaction SIGHASH engine
(src/transaction/sighash.rs) and the script template matcher
(src/script/script_template.rs), with theorems about the behaviour the
specification describes.  Bytes are modelled as natural numbers; byte
buffers as lists of naturals.  External collaborators (SHA256d, the
compact-signature and public-key parsers, the opcode name table) are
modelled as parameters or as stand-ins documented at their definitions.
-/

/-- Modelled from the spec: 4-byte little-endian serialization of a 32-bit integer. -/
def u32LE (n : Nat) : List Nat :=
  [n % 256, n / 256 % 256, n / 65536 % 256, n / 16777216 % 256]

/-- Modelled from the spec: 2-byte little-endian serialization of a 16-bit integer. -/
def u16LE (n : Nat) : List Nat :=
  [n % 256, n / 256 % 256]

/-- Modelled from the spec: 8-byte little-endian serialization of a 64-bit integer. -/
def u64LE (n : Nat) : List Nat :=
  [n % 256, n / 256 % 256, n / 65536 % 256, n / 16777216 % 256,
   n / 4294967296 % 256, n / 1099511627776 % 256,
   n / 281474976710656 % 256, n / 72057594037927936 % 256]

/-- Modelled from the spec: Bitcoin VarInt encoding of a length, used by the
preimage builder for the script-code length and by TxOut serialization. -/
def write_varint (n : Nat) : List Nat :=
  if n < 253 then [n]
  else if n ≤ 65535 then 253 :: u16LE n
  else if n ≤ 4294967295 then 254 :: u32LE n
  else 255 :: u64LE n

/-- Modelled from the spec: a transaction input; only the members the SIGHASH
engine consumes (outpoint and sequence) are relevant here. -/
structure TxIn where
  prev_tx_id : List Nat
  vout : Nat
  script_sig : List Nat
  sequence : Nat
  deriving DecidableEq

/-- Modelled from the spec: 36 outpoint bytes, the 32-byte txid followed by the
4-byte little-endian output index. -/
def TxIn.get_outpoint_bytes (t : TxIn) : List Nat :=
  t.prev_tx_id ++ u32LE t.vout

/-- Modelled from the spec: the input sequence number as 4 bytes little-endian. -/
def TxIn.get_sequence_as_bytes (t : TxIn) : List Nat :=
  u32LE t.sequence

/-- Modelled from the spec: a transaction output. -/
structure TxOut where
  value : Nat
  script_pub_key : List Nat
  deriving DecidableEq

/-- Modelled from the spec: the standard Bitcoin TX output serialization,
8-byte little-endian value, VarInt script length, script bytes. -/
def TxOut.to_bytes_impl (o : TxOut) : List Nat :=
  u64LE o.value ++ write_varint o.script_pub_key.length ++ o.script_pub_key

/-- The memoization cache for the three reusable sub-digests. -/
structure HashCache where
  hash_inputs : Option (List Nat)
  hash_sequence : Option (List Nat)
  hash_outputs : Option (List Nat)
  deriving DecidableEq

/-- An empty cache, as produced by HashCache::new. -/
def HashCache.new : HashCache :=
  ⟨none, none, none⟩

/-- The transaction members that the SIGHASH engine reads, together with the
owned hash cache. -/
structure Transaction where
  version : Nat
  inputs : List TxIn
  outputs : List TxOut
  n_locktime : Nat
  hash_cache : HashCache
  deriving DecidableEq

/-- Modelled from the spec: fetch the input at an index, none when out of range. -/
def Transaction.get_input (tx : Transaction) (n : Nat) : Option TxIn :=
  tx.inputs[n]?

/-- Modelled from the spec: fetch the output at an index, none when out of range. -/
def Transaction.get_output (tx : Transaction) (n : Nat) : Option TxOut :=
  tx.outputs[n]?

/-- Modelled from the spec: the number of outputs. -/
def Transaction.get_noutputs (tx : Transaction) : Nat :=
  tx.outputs.length

/-- The SigHash flag enumeration of sighash.rs. -/
inductive SigHash where
  | FORKID
  | ALL
  | NONE
  | SINGLE
  | ANYONECANPAY
  | InputsOutputs
  | Inputs
  | InputsOutput
  | InputOutputs
  | Input
  | InputOutput
  deriving DecidableEq

/-- The numeric value of each SigHash variant, shared by its 8-bit and 32-bit
integer representations. -/
def SigHash.toNum : SigHash → Nat
  | .FORKID => 0x40
  | .ALL => 0x01
  | .NONE => 0x02
  | .SINGLE => 0x03
  | .ANYONECANPAY => 0x80
  | .InputsOutputs => 0x41
  | .Inputs => 0x42
  | .InputsOutput => 0x43
  | .InputOutputs => 0xc1
  | .Input => 0xc2
  | .InputOutput => 0xc3

/-- Transaction::hash_sequence of sighash.rs, with the SHA256d primitive passed
as the parameter sha and the cache mutation made explicit in the returned
transaction. -/
def Transaction.hash_sequence (sha : List Nat → List Nat) (tx : Transaction)
    (sighash : SigHash) : List Nat × Transaction :=
  match tx.hash_cache.hash_sequence with
  | some x => (x, tx)
  | none =>
    match sighash with
    | .ALL | .InputsOutputs =>
      let input_sequences := List.flatten (tx.inputs.map TxIn.get_sequence_as_bytes)
      let hash := sha input_sequences
      (hash, { tx with hash_cache := { tx.hash_cache with hash_sequence := some hash } })
    | _ => (List.replicate 32 0, tx)

/-- Transaction::hash_outputs of sighash.rs. -/
def Transaction.hash_outputs (sha : List Nat → List Nat) (tx : Transaction)
    (sighash : SigHash) (n_tx_in : Nat) : Except String (List Nat × Transaction) :=
  match tx.hash_cache.hash_outputs with
  | some x => .ok (x, tx)
  | none =>
    match sighash with
    | .SINGLE | .InputOutput | .InputsOutput =>
      if tx.get_noutputs < n_tx_in then
        .error "Cannot sign with SIGHASH_SINGLE given input index greater than number of outputs"
      else
        match tx.get_output n_tx_in with
        | none => .error "Could not find output at index"
        | some output => .ok (sha output.to_bytes_impl, tx)
    | .ALL | .InputOutputs | .InputsOutputs =>
      let txout_bytes := List.flatten (tx.outputs.map TxOut.to_bytes_impl)
      let hash := sha txout_bytes
      .ok (hash, { tx with hash_cache := { tx.hash_cache with hash_outputs := some hash } })
    | _ => .ok (List.replicate 32 0, tx)

/-- Transaction::hash_inputs of sighash.rs (the hashPrevouts policy). -/
def Transaction.hash_inputs (sha : List Nat → List Nat) (tx : Transaction)
    (sighash : SigHash) : List Nat × Transaction :=
  match tx.hash_cache.hash_inputs with
  | some x => (x, tx)
  | none =>
    match sighash with
    | .ANYONECANPAY | .Input | .InputOutput | .InputOutputs => (List.replicate 32 0, tx)
    | _ =>
      let input_bytes := List.flatten (tx.inputs.map TxIn.get_outpoint_bytes)
      let hash := sha input_bytes
      (hash, { tx with hash_cache := { tx.hash_cache with hash_inputs := some hash } })

/-- Transaction::sighash_preimage_impl of sighash.rs: the preimage buffer
builder.  hash_outputs runs first, then hash_inputs and hash_sequence, each
threading the cache exactly as the mutable borrow does in the source. -/
def Transaction.sighash_preimage_impl (sha : List Nat → List Nat) (tx : Transaction)
    (n_tx_in : Nat) (sighash : SigHash) (presigned_script : List Nat) (value : Nat) :
    Except String (List Nat × Transaction) :=
  match tx.get_input n_tx_in with
  | none => .error "Could not get TxIn at index"
  | some input =>
    match Transaction.hash_outputs sha tx sighash n_tx_in with
    | .error e => .error e
    | .ok (hashed_outputs, tx1) =>
      let r2 := Transaction.hash_inputs sha tx1 sighash
      let r3 := Transaction.hash_sequence sha r2.2 sighash
      .ok (u32LE tx.version ++ r2.1 ++ r3.1 ++ input.get_outpoint_bytes ++
             write_varint presigned_script.length ++ presigned_script ++
             u64LE value ++ u32LE input.sequence ++ hashed_outputs ++
             u32LE tx.n_locktime ++ u32LE sighash.toNum,
           r3.2)

/-- Transaction::sighash_impl of sighash.rs, including the consensus
SIGHASH_SINGLE bug branch. -/
def Transaction.sighash_impl (sha : List Nat → List Nat) (tx : Transaction)
    (n_tx_in : Nat) (sighash : SigHash) (presigned_script : List Nat) (value : Nat) :
    Except String (List Nat × Transaction) :=
  if sighash = SigHash.InputsOutput ∧ tx.outputs.length ≤ n_tx_in then
    .ok (List.replicate 31 0 ++ [1], tx)
  else
    match Transaction.sighash_preimage_impl sha tx n_tx_in sighash presigned_script value with
    | .error e => .error e
    | .ok (buffer, tx1) => .ok (sha buffer, tx1)

/-- Modelled from the spec: SHA256d is an external hashing primitive that
returns a 32-byte digest.  Theorems quantify over the hash function; this
stand-in (constant 32-byte output) instantiates witnesses and counterexamples. -/
def sha0 : List Nat → List Nat :=
  fun _ => List.replicate 32 0

/-- True exactly on the error constructor of Except. -/
def isErr {ε α : Type} : Except ε α → Bool :=
  fun r => match r with | .error _ => true | .ok _ => false

/-- The buffer of a successful preimage or digest computation, an empty list
on error. -/
def pbytes : Except String (List Nat × Transaction) → List Nat :=
  fun r => match r with | .ok p => p.1 | .error _ => []

/-- The transaction of a successful preimage or digest computation, a default
on error. -/
def ptx (d : Transaction) : Except String (List Nat × Transaction) → Transaction :=
  fun r => match r with | .ok p => p.2 | .error _ => d

/-- A concrete input used by witnesses. -/
def txin0 : TxIn :=
  ⟨List.replicate 32 0, 0, [], 0⟩

/-- A concrete output used by witnesses. -/
def txout0 : TxOut :=
  ⟨0, []⟩

/-- One input, no outputs, empty cache. -/
def txA : Transaction :=
  ⟨1, [txin0], [], 0, HashCache.new⟩

/-- One input, one output, empty cache. -/
def txB : Transaction :=
  ⟨1, [txin0], [txout0], 0, HashCache.new⟩

/-- No inputs, no outputs, empty cache. -/
def txNoIn : Transaction :=
  ⟨1, [], [], 0, HashCache.new⟩

/-- One input, no outputs, with a non-zero cached hashInputs digest. -/
def txCachedIn : Transaction :=
  ⟨1, [txin0], [], 0, ⟨some (List.replicate 32 1), none, none⟩⟩

/-- One input, one output, with a cached hashOutputs digest. -/
def txCachedOut : Transaction :=
  ⟨1, [txin0], [txout0], 0, ⟨none, none, some (List.replicate 32 3)⟩⟩

/-- C1: for every transaction, script code and value, when the flag is
SINGLE|FORKID (SigHash::InputsOutput, 0x43) and the input index is at least
the number of outputs, sighash returns Ok of exactly 31 zero bytes followed
by 0x01, bypassing the preimage and digest entirely; nothing constrains the
input index against the inputs. -/
theorem c1_sighash_single_forkid_bug (sha : List Nat → List Nat) (tx : Transaction)
    (n : Nat) (script : List Nat) (value : Nat) (h : tx.outputs.length ≤ n) :
    Transaction.sighash_impl sha tx n SigHash.InputsOutput script value =
      .ok (List.replicate 31 0 ++ [1], tx) := by
  unfold Transaction.sighash_impl
  rw [if_pos ⟨rfl, h⟩]

/-- Witness for C1, at an input index that is also out of range of the inputs. -/
theorem c1_witness :
    txNoIn.outputs.length ≤ 5 ∧
      Transaction.sighash_impl sha0 txNoIn 5 SigHash.InputsOutput [] 0 =
        .ok (List.replicate 31 0 ++ [1], txNoIn) :=
  ⟨by decide, c1_sighash_single_forkid_bug sha0 txNoIn 5 [] 0 (by decide)⟩

/-- The digest that the ALL-family branch of hash_sequence computes: SHA256d of
the concatenation over all inputs of the 4-byte little-endian sequence bytes. -/
def seqDigest (sha : List Nat → List Nat) (tx : Transaction) : List Nat :=
  sha (List.flatten (tx.inputs.map TxIn.get_sequence_as_bytes))

/-- C5: from an empty hashSequence cache, hash_sequence computes and caches
SHA256d of the concatenated 4-byte little-endian sequences exactly for the
flags ALL (0x01) and ALL|FORKID (InputsOutputs, 0x41); every other flag gets
32 zero bytes with the transaction, and so the hashSequence cache field,
returned unchanged. -/
theorem c5_hash_sequence_cache_policy (sha : List Nat → List Nat) (tx : Transaction)
    (hc : tx.hash_cache.hash_sequence = none) :
    (∀ flag, flag = SigHash.ALL ∨ flag = SigHash.InputsOutputs →
      Transaction.hash_sequence sha tx flag =
        (seqDigest sha tx,
         { tx with hash_cache := { tx.hash_cache with hash_sequence := some (seqDigest sha tx) } })) ∧
    (∀ flag, flag ≠ SigHash.ALL → flag ≠ SigHash.InputsOutputs →
      Transaction.hash_sequence sha tx flag = (List.replicate 32 0, tx)) := by
  constructor
  · intro flag hf
    rcases hf with rfl | rfl <;> simp [Transaction.hash_sequence, seqDigest, hc]
  · intro flag h1 h2
    cases flag <;> simp [Transaction.hash_sequence, hc] <;> simp_all

/-- Witness for C5: a NONE flag returns the zero vector and leaves the
transaction, cache included, untouched. -/
theorem c5_witness :
    Transaction.hash_sequence sha0 txB SigHash.NONE = (List.replicate 32 0, txB) :=
  (c5_hash_sequence_cache_policy sha0 txB rfl).2 SigHash.NONE (by decide) (by decide)

/-- C6: a populated cache field short-circuits the corresponding hash function
unconditionally: whatever the flag (and, for hashOutputs, whatever the input
index), the cached digest is returned and the transaction is unchanged. -/
theorem c6_cache_hit_unconditional (sha : List Nat → List Nat) (tx : Transaction)
    (flag : SigHash) (n : Nat) :
    (∀ x, tx.hash_cache.hash_inputs = some x →
      Transaction.hash_inputs sha tx flag = (x, tx)) ∧
    (∀ x, tx.hash_cache.hash_sequence = some x →
      Transaction.hash_sequence sha tx flag = (x, tx)) ∧
    (∀ x, tx.hash_cache.hash_outputs = some x →
      Transaction.hash_outputs sha tx flag n = .ok (x, tx)) := by
  refine ⟨?_, ?_, ?_⟩ <;> intro x hx <;>
    simp [Transaction.hash_inputs, Transaction.hash_sequence, Transaction.hash_outputs, hx]

/-- Witness for C6: a cached hashInputs digest of ones is returned even for the
ALL flag, whose uncached branch would hash the outpoints; and a cached
hashOutputs digest is returned for a NONE-mode request. -/
theorem c6_witness :
    Transaction.hash_inputs sha0 txCachedIn SigHash.ALL = (List.replicate 32 1, txCachedIn) ∧
    Transaction.hash_outputs sha0 txCachedOut SigHash.NONE 7 = .ok (List.replicate 32 3, txCachedOut) :=
  ⟨(c6_cache_hit_unconditional sha0 txCachedIn SigHash.ALL 0).1 _ rfl,
   (c6_cache_hit_unconditional sha0 txCachedOut SigHash.NONE 7).2.2 _ rfl⟩

/-- Counterexample for C4: with one output and an empty cache, a SINGLE-mode
hashOutputs request at index 1 fails (the output lookup misses) even though
the index is not strictly greater than the number of outputs, so the claimed
"if and only if n_tx_in > number_of_outputs" is false at the boundary. -/
theorem c4_counterexample :
    isErr (Transaction.hash_outputs sha0 txB SigHash.SINGLE 1) = true ∧
      ¬ (txB.get_noutputs < 1) := by
  constructor
  · rfl
  · decide

/-- C4 (amended): when the hashOutputs cache is empty and the flag's outputs
mode is SINGLE (SigHash::SINGLE, InputOutput or InputsOutput), the hashOutputs
computation for index n fails exactly when n is at least the number of outputs
(via the explicit bound check for n strictly greater, and via the failed output
lookup at n equal); otherwise it returns SHA256d of the serialized output at n
and stores nothing in the cache. -/
theorem c4_hash_outputs_single_mode (sha : List Nat → List Nat) (tx : Transaction)
    (flag : SigHash) (n : Nat)
    (hc : tx.hash_cache.hash_outputs = none)
    (hf : flag = SigHash.SINGLE ∨ flag = SigHash.InputOutput ∨ flag = SigHash.InputsOutput) :
    (isErr (Transaction.hash_outputs sha tx flag n) = true ↔ tx.outputs.length ≤ n) ∧
    (∀ (h : n < tx.outputs.length),
      Transaction.hash_outputs sha tx flag n =
        .ok (sha (tx.outputs.get ⟨n, h⟩).to_bytes_impl, tx)) := by
  have hmain : ∀ (h : n < tx.outputs.length) (hfe : flag = SigHash.SINGLE ∨
      flag = SigHash.InputOutput ∨ flag = SigHash.InputsOutput),
      Transaction.hash_outputs sha tx flag n =
        .ok (sha (tx.outputs.get ⟨n, h⟩).to_bytes_impl, tx) := by
    intro h hfe
    have hlt : ¬ tx.get_noutputs < n := by
      simp only [Transaction.get_noutputs]
      omega
    have hget : tx.get_output n = some (tx.outputs.get ⟨n, h⟩) := by
      simp [Transaction.get_output, List.getElem?_eq_getElem h]
    rcases hfe with rfl | rfl | rfl <;>
      simp [Transaction.hash_outputs, hc, hlt, hget]
  constructor
  · constructor
    · intro herr
      by_contra hn
      push_neg at hn
      rw [hmain hn hf] at herr
      simp [isErr] at herr
    · intro hn
      have hget : tx.get_output n = none := by
        simp [Transaction.get_output, List.getElem?_eq_none hn]
      rcases hf with rfl | rfl | rfl <;>
        by_cases hlt : tx.get_noutputs < n <;>
          simp [Transaction.hash_outputs, hc, hlt, hget, isErr]
  · intro h
    exact hmain h hf

/-- Witness for C4: with one output and an empty cache, the SINGLE request at
index 0 succeeds with the digest of the serialized output and an unchanged
transaction. -/
theorem c4_witness :
    Transaction.hash_outputs sha0 txB SigHash.SINGLE 0 =
      .ok (sha0 txout0.to_bytes_impl, txB) :=
  (c4_hash_outputs_single_mode sha0 txB SigHash.SINGLE 0 rfl (Or.inl rfl)).2 (by decide)

/-- A successful hash_outputs computation never touches the hashInputs or
hashSequence cache fields. -/
theorem hash_outputs_ok_cache (sha : List Nat → List Nat) (tx : Transaction)
    (flag : SigHash) (n : Nat) (b : List Nat) (tx' : Transaction)
    (h : Transaction.hash_outputs sha tx flag n = .ok (b, tx')) :
    tx'.hash_cache.hash_inputs = tx.hash_cache.hash_inputs ∧
    tx'.hash_cache.hash_sequence = tx.hash_cache.hash_sequence := by
  unfold Transaction.hash_outputs at h
  split at h
  all_goals try split at h
  all_goals try split at h
  all_goals try split at h
  all_goals simp at h
  all_goals obtain ⟨-, h2⟩ := h
  all_goals subst h2
  all_goals exact ⟨rfl, rfl⟩

/-- Dropping the 4 leading version bytes of the preimage. -/
theorem drop_four_u32LE (v : Nat) (l : List Nat) : List.drop 4 (u32LE v ++ l) = l :=
  rfl

/-- Taking a 32-byte zero block at the front of the remaining preimage. -/
theorem take_32_replicate (l : List Nat) :
    List.take 32 (List.replicate 32 (0 : Nat) ++ l) = List.replicate 32 0 := by
  simp

/-- Counterexample for C3: with a non-zero digest already cached in hashInputs,
a preimage computed under the ANYONECANPAY flag embeds the cached bytes at
offsets 4 to 36, not 32 zero bytes, so the claim is false for arbitrary cache
states. -/
theorem c3_counterexample :
    isErr (Transaction.sighash_preimage_impl sha0 txCachedIn 0 SigHash.ANYONECANPAY [] 0) = false ∧
      List.take 32 (List.drop 4 (pbytes
        (Transaction.sighash_preimage_impl sha0 txCachedIn 0 SigHash.ANYONECANPAY [] 0))) ≠
        List.replicate 32 0 := by
  constructor
  · rfl
  · decide

/-- C3 (amended): for a flag with the ANYONECANPAY bit set (ANYONECANPAY,
InputOutputs, Input, InputOutput), and a transaction whose hashInputs cache is
empty, any preimage that sighash_preimage returns carries 32 zero bytes at
offsets 4 to 36 (the hashPrevouts field). -/
theorem c3_anyonecanpay_zero_hashprevouts (sha : List Nat → List Nat) (tx : Transaction)
    (n : Nat) (script : List Nat) (value : Nat) (flag : SigHash) (b : List Nat)
    (tx' : Transaction)
    (hf : flag = SigHash.ANYONECANPAY ∨ flag = SigHash.InputOutputs ∨
      flag = SigHash.Input ∨ flag = SigHash.InputOutput)
    (hc : tx.hash_cache.hash_inputs = none)
    (h : Transaction.sighash_preimage_impl sha tx n flag script value = .ok (b, tx')) :
    List.take 32 (List.drop 4 b) = List.replicate 32 0 := by
  unfold Transaction.sighash_preimage_impl at h
  cases hin : tx.get_input n with
  | none => rw [hin] at h; exact absurd h (by simp)
  | some input =>
    rw [hin] at h
    cases hout : Transaction.hash_outputs sha tx flag n with
    | error e => rw [hout] at h; exact absurd h (by simp)
    | ok p =>
      obtain ⟨ho, tx1⟩ := p
      rw [hout] at h
      have hpres := hash_outputs_ok_cache sha tx flag n ho tx1 hout
      have hc1 : tx1.hash_cache.hash_inputs = none := by rw [hpres.1, hc]
      have hz1 : (Transaction.hash_inputs sha tx1 flag).1 = List.replicate 32 0 := by
        rcases hf with rfl | rfl | rfl | rfl <;> simp [Transaction.hash_inputs, hc1]
      simp only [Except.ok.injEq, Prod.mk.injEq] at h
      obtain ⟨hb, -⟩ := h
      subst hb
      rw [hz1]
      simp only [List.append_assoc]
      rw [drop_four_u32LE]
      exact take_32_replicate _

/-- Witness for C3 (amended): with an empty cache, the ANYONECANPAY preimage of
a one-input transaction has 32 zero bytes at offsets 4 to 36. -/
theorem c3_witness :
    List.take 32 (List.drop 4 (pbytes
      (Transaction.sighash_preimage_impl sha0 txA 0 SigHash.ANYONECANPAY [] 0))) =
      List.replicate 32 0 :=
  c3_anyonecanpay_zero_hashprevouts sha0 txA 0 [] 0 SigHash.ANYONECANPAY
    (pbytes (Transaction.sighash_preimage_impl sha0 txA 0 SigHash.ANYONECANPAY [] 0))
    (ptx txA (Transaction.sighash_preimage_impl sha0 txA 0 SigHash.ANYONECANPAY [] 0))
    (Or.inl rfl) rfl rfl

/-- Counterexample for C2: at an input index inside the inputs and the
recognized flag SINGLE, a transaction without outputs makes sighash_preimage
return an error rather than the claimed concatenation. -/
theorem c2_counterexample :
    txA.get_input 0 = some txin0 ∧
      isErr (Transaction.sighash_preimage_impl sha0 txA 0 SigHash.SINGLE [] 0) = true :=
  ⟨rfl, rfl⟩

/-- Dropping everything but the trailing 4-byte flag suffix of the preimage. -/
theorem drop_length_sub_four (l : List Nat) (m : Nat) :
    List.drop ((l ++ u32LE m).length - 4) (l ++ u32LE m) = u32LE m := by
  have h4 : (u32LE m).length = 4 := rfl
  rw [List.length_append, h4, Nat.add_sub_cancel]
  exact List.drop_left _ _

/-- C2 (amended): whenever the input lookup and the hashOutputs computation
succeed, sighash_preimage returns Ok of exactly the concatenation of version
(4 bytes LE), hashPrevouts (as computed by hash_inputs), hashSequence (as
computed by hash_sequence on the threaded state), the outpoint bytes of the
chosen input, VarInt of the script-code length then the script-code bytes,
value (8 bytes LE), the chosen input's sequence (4 bytes LE), hashOutputs,
nLocktime (4 bytes LE) and the flag zero-extended to 4 bytes LE; the final
four bytes of any returned preimage are the full flag byte followed by three
zero bytes, preserving the FORKID and ANYONECANPAY bits. -/
theorem c2_preimage_layout (sha : List Nat → List Nat) (tx : Transaction) (n : Nat)
    (flag : SigHash) (script : List Nat) (value : Nat) (input : TxIn) (ho : List Nat)
    (tx1 : Transaction)
    (hin : tx.get_input n = some input)
    (hout : Transaction.hash_outputs sha tx flag n = .ok (ho, tx1)) :
    Transaction.sighash_preimage_impl sha tx n flag script value =
      .ok (u32LE tx.version ++ (Transaction.hash_inputs sha tx1 flag).1 ++
             (Transaction.hash_sequence sha (Transaction.hash_inputs sha tx1 flag).2 flag).1 ++
             input.get_outpoint_bytes ++ write_varint script.length ++ script ++
             u64LE value ++ u32LE input.sequence ++ ho ++ u32LE tx.n_locktime ++
             u32LE flag.toNum,
           (Transaction.hash_sequence sha (Transaction.hash_inputs sha tx1 flag).2 flag).2) ∧
    u32LE flag.toNum = [flag.toNum, 0, 0, 0] ∧
    (∀ b tx2, Transaction.sighash_preimage_impl sha tx n flag script value = .ok (b, tx2) →
      List.drop (b.length - 4) b = u32LE flag.toNum) := by
  have h1 : Transaction.sighash_preimage_impl sha tx n flag script value =
      .ok (u32LE tx.version ++ (Transaction.hash_inputs sha tx1 flag).1 ++
             (Transaction.hash_sequence sha (Transaction.hash_inputs sha tx1 flag).2 flag).1 ++
             input.get_outpoint_bytes ++ write_varint script.length ++ script ++
             u64LE value ++ u32LE input.sequence ++ ho ++ u32LE tx.n_locktime ++
             u32LE flag.toNum,
           (Transaction.hash_sequence sha (Transaction.hash_inputs sha tx1 flag).2 flag).2) := by
    unfold Transaction.sighash_preimage_impl
    rw [hin, hout]
  refine ⟨h1, ?_, ?_⟩
  · cases flag <;> rfl
  · intro b tx2 hb
    rw [h1] at hb
    simp only [Except.ok.injEq, Prod.mk.injEq] at hb
    obtain ⟨hbeq, -⟩ := hb
    subst hbeq
    exact drop_length_sub_four _ _

/-- The concrete successful preimage computation used by the C2 witness. -/
def c2r : Except String (List Nat × Transaction) :=
  Transaction.sighash_preimage_impl sha0 txB 0 SigHash.InputsOutputs [] 0

/-- Witness for C2 (amended): for a one-input one-output transaction under
ALL|FORKID, the preimage ends with the flag byte 0x41 zero-extended to 4
bytes little-endian. -/
theorem c2_witness :
    List.drop ((pbytes c2r).length - 4) (pbytes c2r) =
      u32LE (SigHash.toNum SigHash.InputsOutputs) :=
  (c2_preimage_layout sha0 txB 0 SigHash.InputsOutputs [] 0 txin0
      (sha0 (List.flatten (txB.outputs.map TxOut.to_bytes_impl)))
      ⟨1, [txin0], [txout0], 0,
        ⟨none, none, some (sha0 (List.flatten (txB.outputs.map TxOut.to_bytes_impl)))⟩⟩
      rfl rfl).2.2 (pbytes c2r) (ptx txB c2r) rfl

/-- Modelled from the spec: opcodes are identified by their byte value. -/
abbrev OpCodes := Nat

/-- OP_0. -/
def OP_0 : OpCodes := 0x00

/-- OP_PUSHDATA1. -/
def OP_PUSHDATA1 : OpCodes := 0x4c

/-- OP_PUSHDATA2. -/
def OP_PUSHDATA2 : OpCodes := 0x4d

/-- OP_PUSHDATA4. -/
def OP_PUSHDATA4 : OpCodes := 0x4e

/-- Modelled from the spec: the pseudo-opcode OP_SIG; the spec fixes only its
identity, not its numeric value, so a distinct placeholder value is used. -/
def OP_SIG : OpCodes := 0xf9

/-- Modelled from the spec: the pseudo-opcode OP_PUBKEY (placeholder value). -/
def OP_PUBKEY : OpCodes := 0xfa

/-- Modelled from the spec: the pseudo-opcode OP_PUBKEYHASH (placeholder value). -/
def OP_PUBKEYHASH : OpCodes := 0xfb

/-- Modelled from the spec: the pseudo-opcode OP_DATA (placeholder value). -/
def OP_DATA : OpCodes := 0xfc

/-- ScriptBit: one tokenized element of a parsed script. -/
inductive ScriptBit where
  | OpCode (op : OpCodes)
  | Push (data : List Nat)
  | PushData (op : OpCodes) (data : List Nat)
  deriving DecidableEq

/-- The data-length constraint carried by a Data match token. -/
inductive DataLengthConstraints where
  | Equals
  | GreaterThan
  | LessThan
  | GreaterThanOrEquals
  | LessThanOrEquals
  deriving DecidableEq

/-- MatchToken: one element of a parsed script template. -/
inductive MatchToken where
  | OpCode (op : OpCodes)
  | Push (data : List Nat)
  | PushData (op : OpCodes) (data : List Nat)
  | AnyData
  | Data (len : Nat) (constraint : DataLengthConstraints)
  | Signature
  | PublicKey
  | PublicKeyHash
  deriving DecidableEq

/-- The tag attached to a capture. -/
inductive MatchDataTypes where
  | Data
  | Signature
  | PublicKey
  | PublicKeyHash
  deriving DecidableEq

/-- A capture returned by a successful match: a tag and the captured bytes. -/
structure Match where
  kind : MatchDataTypes
  data : List Nat
  deriving DecidableEq

/-- A parsed script: an ordered sequence of script bits. -/
structure Script where
  bits : List ScriptBit
  deriving DecidableEq

/-- A parsed template: an ordered sequence of match tokens. -/
structure ScriptTemplate where
  tokens : List MatchToken
  deriving DecidableEq

/-- The hex crate's error type for a failed hex decode. -/
inductive FromHexError where
  | InvalidHexCharacter (c : Char) (index : Nat)
  | OddLength
  deriving DecidableEq

/-- ScriptTemplateErrors of script_template.rs.  The textual cause carried by
OpDataParse and the original token are kept as the token characters. -/
inductive ScriptTemplateErrors where
  | MatchFailure (index : Nat) (token : MatchToken) (bit : ScriptBit)
  | OpDataParse (code : List Char)
  | EmptyScriptDoesntMatch
  | MalformedHex (e : FromHexError)
  deriving DecidableEq

/-- The match predicate of Script::match_impl, one template token against one
script bit.  The external compact-signature and public-key parsers are the
boolean parameters sigOk and pkOk. -/
def isMatch (sigOk pkOk : List Nat → Bool) (t : MatchToken) (b : ScriptBit) : Bool :=
  match t, b with
  | .OpCode tmpl_code, .OpCode op_code => tmpl_code == op_code
  | .Push tmpl_data, .Push data => tmpl_data == data
  | .PushData tmpl_op tmpl_data, .PushData op data => tmpl_op == op && tmpl_data == data
  | .Data len c, .PushData _ data | .Data len c, .Push data =>
    match c with
    | .Equals => data.length == len
    | .GreaterThan => decide (len < data.length)
    | .LessThan => decide (data.length < len)
    | .GreaterThanOrEquals => decide (len ≤ data.length)
    | .LessThanOrEquals => decide (data.length ≤ len)
  | .AnyData, .Push _ => true
  | .AnyData, .PushData _ _ => true
  | .Signature, .Push sig_buf => sigOk sig_buf
  | .PublicKey, .Push pubkey_buf => pkOk pubkey_buf
  | .PublicKeyHash, .Push pubkeyhash_buf => pubkeyhash_buf.length == 20
  | _, _ => false

/-- The capture step of Script::match_impl: the captures appended for one
matched (token, bit) pair; the empty list for non-capturing pairs. -/
def captureOf (t : MatchToken) (b : ScriptBit) : List Match :=
  match t, b with
  | .Data _ _, .PushData _ data | .Data _ _, .Push data => [⟨.Data, data⟩]
  | .AnyData, .Push data => [⟨.Data, data⟩]
  | .AnyData, .PushData _ data => [⟨.Data, data⟩]
  | .Signature, .Push data => [⟨.Data, data⟩]
  | .PublicKey, .Push data => [⟨.Data, data⟩]
  | .PublicKeyHash, .Push data => [⟨.Data, data⟩]
  | _, _ => []

/-- The indexed lock-step walk of Script::match_impl over the zipped
(token, bit) pairs. -/
def matchLoop (sigOk pkOk : List Nat → Bool) :
    Nat → List (MatchToken × ScriptBit) → Except ScriptTemplateErrors (List Match)
  | _, [] => .ok []
  | i, p :: rest =>
    if isMatch sigOk pkOk p.1 p.2 then
      match matchLoop sigOk pkOk (i + 1) rest with
      | .error e => .error e
      | .ok ms => .ok (captureOf p.1 p.2 ++ ms)
    else
      .error (.MatchFailure i p.1 p.2)

/-- Script::match_impl of script_template.rs. -/
def Script.match_impl (sigOk pkOk : List Nat → Bool) (s : Script)
    (script_template : ScriptTemplate) : Except ScriptTemplateErrors (List Match) :=
  if s.bits = [] ∧ script_template.tokens ≠ [] then
    .error .EmptyScriptDoesntMatch
  else
    matchLoop sigOk pkOk 0 (script_template.tokens.zip s.bits)

/-- Script::test_impl of script_template.rs. -/
def Script.test_impl (sigOk pkOk : List Nat → Bool) (s : Script)
    (script_template : ScriptTemplate) : Bool :=
  match Script.match_impl sigOk pkOk s script_template with
  | .ok _ => true
  | .error _ => false

/-- Modelled from the spec: stand-in for Signature::from_compact validity,
used only to instantiate witnesses; theorems quantify over the predicate. -/
def sigOk0 : List Nat → Bool :=
  fun _ => false

/-- Modelled from the spec: stand-in for PublicKey::from_bytes validity,
used only to instantiate witnesses; theorems quantify over the predicate. -/
def pkOk0 : List Nat → Bool :=
  fun _ => false

/-- Zipping ignores the part of the right list beyond the left list's length. -/
theorem zip_append_of_le {α β : Type} (l1 : List α) (l2 l3 : List β)
    (h : l1.length ≤ l2.length) : l1.zip (l2 ++ l3) = l1.zip l2 := by
  induction l1 generalizing l2 with
  | nil => simp
  | cons a as ih =>
    cases l2 with
    | nil => simp at h
    | cons b bs =>
      simp only [List.cons_append, List.zip_cons_cons]
      rw [ih bs (by simpa using h)]

/-- Zipping ignores the part of the left list beyond the right list's length. -/
theorem append_zip_of_le {α β : Type} (l1 l3 : List α) (l2 : List β)
    (h : l2.length ≤ l1.length) : (l1 ++ l3).zip l2 = l1.zip l2 := by
  induction l1 generalizing l2 with
  | nil =>
    have hl : l2 = [] := by
      cases l2 with
      | nil => rfl
      | cons c cs => simp at h
    subst hl
    simp
  | cons a as ih =>
    cases l2 with
    | nil => simp
    | cons b bs =>
      simp only [List.cons_append, List.zip_cons_cons]
      rw [ih bs (by simpa using h)]

/-- The lock-step walk only ever fails with a positional MatchFailure. -/
theorem matchLoop_error_is_match_failure (sigOk pkOk : List Nat → Bool) :
    ∀ (l : List (MatchToken × ScriptBit)) (i : Nat) (e : ScriptTemplateErrors),
      matchLoop sigOk pkOk i l = .error e → ∃ j t b, e = .MatchFailure j t b := by
  intro l
  induction l with
  | nil => intro i e h; simp [matchLoop] at h
  | cons p rest ih =>
    intro i e h
    rw [matchLoop] at h
    by_cases hm : isMatch sigOk pkOk p.1 p.2
    · rw [if_pos hm] at h
      cases hr : matchLoop sigOk pkOk (i + 1) rest with
      | error e2 =>
        rw [hr] at h
        simp only [Except.error.injEq] at h
        subst h
        exact ih (i + 1) e2 hr
      | ok ms => rw [hr] at h; simp at h
    · rw [if_neg hm] at h
      simp only [Except.error.injEq] at h
      exact ⟨i, p.1, p.2, h.symm⟩

/-- C7: match fails with EmptyScriptDoesntMatch exactly when the script is
empty and the template is not; the walk stops at the shorter sequence, so
extra script bits beyond the template length and extra template tokens beyond
the script length never change the outcome; and an empty template matches any
script with an empty capture list. -/
theorem c7_match_length_tolerance (sigOk pkOk : List Nat → Bool) (s : Script)
    (tpl : ScriptTemplate) :
    (Script.match_impl sigOk pkOk s tpl = .error .EmptyScriptDoesntMatch ↔
      s.bits = [] ∧ tpl.tokens ≠ []) ∧
    (∀ extra, tpl.tokens.length ≤ s.bits.length →
      Script.match_impl sigOk pkOk ⟨s.bits ++ extra⟩ tpl =
        Script.match_impl sigOk pkOk s tpl) ∧
    (∀ extra, s.bits ≠ [] → s.bits.length ≤ tpl.tokens.length →
      Script.match_impl sigOk pkOk s ⟨tpl.tokens ++ extra⟩ =
        Script.match_impl sigOk pkOk s tpl) ∧
    Script.match_impl sigOk pkOk s ⟨[]⟩ = .ok [] := by
  refine ⟨⟨?_, ?_⟩, ?_, ?_, ?_⟩
  · intro h
    unfold Script.match_impl at h
    by_cases hc : s.bits = [] ∧ tpl.tokens ≠ []
    · exact hc
    · rw [if_neg hc] at h
      obtain ⟨j, t, b, he⟩ := matchLoop_error_is_match_failure sigOk pkOk _ 0 _ h
      exact absurd he (by simp)
  · intro hc
    unfold Script.match_impl
    rw [if_pos hc]
  · intro extra hlen
    unfold Script.match_impl
    by_cases hb : s.bits = []
    · have ht : tpl.tokens = [] := by
        rw [hb] at hlen
        simpa using hlen
      simp [hb, ht, matchLoop]
    · have h1 : ¬ (s.bits ++ extra = [] ∧ tpl.tokens ≠ []) := by
        intro hcon
        exact hb (List.append_eq_nil.mp hcon.1).1
      have h2 : ¬ (s.bits = [] ∧ tpl.tokens ≠ []) := fun hcon => hb hcon.1
      rw [if_neg h1, if_neg h2, zip_append_of_le _ _ _ hlen]
  · intro extra hb hlen
    unfold Script.match_impl
    have h1 : ¬ (s.bits = [] ∧ tpl.tokens ++ extra ≠ []) := fun hcon => hb hcon.1
    have h2 : ¬ (s.bits = [] ∧ tpl.tokens ≠ []) := fun hcon => hb hcon.1
    rw [if_neg h1, if_neg h2, append_zip_of_le _ _ _ hlen]
  · unfold Script.match_impl
    have h1 : ¬ (s.bits = [] ∧ (⟨[]⟩ : ScriptTemplate).tokens ≠ []) := fun hcon => hcon.2 rfl
    rw [if_neg h1]
    simp [matchLoop]

/-- Witness for C7: a one-token template gives the same result on a one-bit
script and on that script extended by an extra push. -/
theorem c7_witness :
    Script.match_impl sigOk0 pkOk0
        ⟨[ScriptBit.OpCode 0x76] ++ [ScriptBit.Push (List.replicate 20 17)]⟩
        ⟨[MatchToken.OpCode 0x76]⟩ =
      Script.match_impl sigOk0 pkOk0 ⟨[ScriptBit.OpCode 0x76]⟩ ⟨[MatchToken.OpCode 0x76]⟩ :=
  (c7_match_length_tolerance sigOk0 pkOk0 ⟨[ScriptBit.OpCode 0x76]⟩
      ⟨[MatchToken.OpCode 0x76]⟩).2.1 [ScriptBit.Push (List.replicate 20 17)] (by decide)

/-- The payload bytes of a script bit, none for a bare opcode. -/
def payloadOf : ScriptBit → Option (List Nat)
  | .Push data => some data
  | .PushData _ data => some data
  | .OpCode _ => none

/-- Every capture produced for one pair carries the Data tag and the payload
of the script bit, verbatim. -/
theorem captureOf_sound (t : MatchToken) (b : ScriptBit) (m : Match)
    (h : m ∈ captureOf t b) :
    m.kind = MatchDataTypes.Data ∧ payloadOf b = some m.data := by
  cases t <;> cases b <;> simp [captureOf] at h <;> subst h <;> simp [payloadOf]

/-- Every capture of a successful lock-step walk comes from some pair of the
walked list. -/
theorem matchLoop_ok_mem (sigOk pkOk : List Nat → Bool) :
    ∀ (l : List (MatchToken × ScriptBit)) (i : Nat) (ms : List Match),
      matchLoop sigOk pkOk i l = .ok ms → ∀ m ∈ ms, ∃ p ∈ l, m ∈ captureOf p.1 p.2 := by
  intro l
  induction l with
  | nil =>
    intro i ms h m hm
    simp [matchLoop] at h
    subst h
    simp at hm
  | cons p rest ih =>
    intro i ms h m hm
    rw [matchLoop] at h
    by_cases hisM : isMatch sigOk pkOk p.1 p.2
    · rw [if_pos hisM] at h
      cases hr : matchLoop sigOk pkOk (i + 1) rest with
      | error e => rw [hr] at h; simp at h
      | ok ms2 =>
        rw [hr] at h
        simp only [Except.ok.injEq] at h
        subst h
        rcases List.mem_append.mp hm with hm1 | hm2
        · exact ⟨p, List.mem_cons_self p rest, hm1⟩
        · obtain ⟨q, hq, hmq⟩ := ih (i + 1) ms2 hr m hm2
          exact ⟨q, List.mem_cons_of_mem _ hq, hmq⟩
    · rw [if_neg hisM] at h
      simp at h

/-- C8: every capture of a successful Script::match is tagged Data, whatever
capturing token produced it, and its bytes are the payload of a script bit,
copied verbatim. -/
theorem c8_captures_tagged_data (sigOk pkOk : List Nat → Bool) (s : Script)
    (tpl : ScriptTemplate) (ms : List Match)
    (h : Script.match_impl sigOk pkOk s tpl = .ok ms) :
    ∀ m ∈ ms, m.kind = MatchDataTypes.Data ∧ ∃ b ∈ s.bits, payloadOf b = some m.data := by
  intro m hm
  unfold Script.match_impl at h
  by_cases hc : s.bits = [] ∧ tpl.tokens ≠ []
  · rw [if_pos hc] at h
    simp at h
  · rw [if_neg hc] at h
    obtain ⟨p, hp, hmp⟩ := matchLoop_ok_mem sigOk pkOk _ 0 ms h m hm
    have hs := captureOf_sound p.1 p.2 m hmp
    exact ⟨hs.1, ⟨p.2, (List.of_mem_zip hp).2, hs.2⟩⟩

/-- Witness for C8: a PublicKeyHash token capturing a 20-byte push yields a
capture tagged Data whose bytes are the push payload. -/
theorem c8_witness :
    (Match.mk MatchDataTypes.Data (List.replicate 20 17)).kind = MatchDataTypes.Data ∧
      ∃ b ∈ [ScriptBit.Push (List.replicate 20 17)],
        payloadOf b = some (List.replicate 20 17) :=
  c8_captures_tagged_data sigOk0 pkOk0 ⟨[ScriptBit.Push (List.replicate 20 17)]⟩
    ⟨[MatchToken.PublicKeyHash]⟩ [⟨MatchDataTypes.Data, List.replicate 20 17⟩] rfl
    ⟨MatchDataTypes.Data, List.replicate 20 17⟩ (by simp)

/-- Modelled from the spec: Rust unsigned from_str strips one optional leading
plus sign. -/
def stripPlus (s : List Char) : List Char :=
  match s with
  | [] => []
  | c :: rest => if c = '+' then rest else c :: rest

/-- Accumulate the decimal value of a digit run; none at the first non-digit. -/
def digitsValAux : Nat → List Char → Option Nat
  | acc, [] => some acc
  | acc, c :: rest =>
    if c.isDigit then digitsValAux (acc * 10 + (c.toNat - 48)) rest else none

/-- Modelled from the spec: Rust unsigned integer parsing (uN::from_str):
an optional plus sign, then one or more decimal digits, rejecting values
reaching the type's bound. -/
def parseUnsigned (bound : Nat) (s : List Char) : Option Nat :=
  let body := stripPlus s
  if body = [] then none
  else
    match digitsValAux 0 body with
    | none => none
    | some v => if v < bound then some v else none

/-- The exclusive bound of usize on a 64-bit target. -/
def usizeBound : Nat := 18446744073709551616

/-- Modelled from the spec: Rust str::split_once, splitting at the leftmost
occurrence of the pattern and returning the parts before and after it. -/
def splitOnceChars (pat : List Char) : List Char → Option (List Char × List Char)
  | [] => if pat.isPrefixOf ([] : List Char) then some ([], []) else none
  | c :: rest =>
    if pat.isPrefixOf (c :: rest) then some ([], List.drop pat.length (c :: rest))
    else
      match splitOnceChars pat rest with
      | some pr => some (c :: pr.1, pr.2)
      | none => none

/-- Modelled from the spec: Rust str::split on a single separator character,
keeping empty pieces; the empty string yields one empty piece. -/
def splitChar (sep : Char) : List Char → List (List Char)
  | [] => [[]]
  | c :: rest =>
    if c = sep then [] :: splitChar sep rest
    else
      match splitChar sep rest with
      | [] => [[c]]
      | h :: t2 => (c :: h) :: t2

/-- The value of one hex digit, none for a non-hex character. -/
def hexVal (c : Char) : Option Nat :=
  if '0' ≤ c ∧ c ≤ '9' then some (c.toNat - 48)
  else if 'a' ≤ c ∧ c ≤ 'f' then some (c.toNat - 87)
  else if 'A' ≤ c ∧ c ≤ 'F' then some (c.toNat - 55)
  else none

/-- Pairwise hex decoding with the index of the offending character on error. -/
def hexDecodePairs : List Char → Nat → Except FromHexError (List Nat)
  | [], _ => .ok []
  | [_], _ => .error .OddLength
  | a :: b2 :: rest, i =>
    match hexVal a with
    | none => .error (.InvalidHexCharacter a i)
    | some va =>
      match hexVal b2 with
      | none => .error (.InvalidHexCharacter b2 (i + 1))
      | some vb =>
        match hexDecodePairs rest (i + 2) with
        | .error e => .error e
        | .ok l => .ok ((va * 16 + vb) :: l)

/-- Modelled from the spec: the hex crate's decode; an odd-length input is
OddLength, a non-hex character is InvalidHexCharacter, and the empty input
decodes to the empty byte sequence. -/
def hexDecode (s : List Char) : Except FromHexError (List Nat) :=
  if s.length % 2 = 1 then .error .OddLength else hexDecodePairs s 0

/-- Modelled from the spec: VarInt::get_pushdata_opcode, the pushdata opcode
appropriate to a payload length, or none when the length fits a direct push. -/
def get_pushdata_opcode (len : Nat) : Option OpCodes :=
  if len ≤ 75 then none
  else if len ≤ 255 then some OP_PUSHDATA1
  else if len ≤ 65535 then some OP_PUSHDATA2
  else if len ≤ 4294967295 then some OP_PUSHDATA4
  else none

/-- The final PUSHDATA rule of the token mapper: hex-decode the token and
emit Push or PushData according to the payload length. -/
def hexTokenOf (code : List Char) : Except ScriptTemplateErrors MatchToken :=
  match hexDecode code with
  | .error e => .error (.MalformedHex e)
  | .ok data_bytes =>
    match get_pushdata_opcode data_bytes.length with
    | some v => .ok (.PushData v data_bytes)
    | none => .ok (.Push data_bytes)

/-- Modelled from the spec: OpCodes::from_str restricted to the opcode names
the spec mentions; every other token is not a recognized opcode name.
Theorems about the parser quantify over this lookup. -/
def opFromStrModel (code : List Char) : Option OpCodes :=
  if code = "OP_0".data then some OP_0
  else if code = "OP_DUP".data then some 0x76
  else if code = "OP_HASH160".data then some 0xa9
  else if code = "OP_EQUALVERIFY".data then some 0x88
  else if code = "OP_CHECKSIG".data then some 0xac
  else if code = "OP_PUSHDATA1".data then some OP_PUSHDATA1
  else if code = "OP_PUSHDATA2".data then some OP_PUSHDATA2
  else if code = "OP_PUSHDATA4".data then some OP_PUSHDATA4
  else if code = "OP_SIG".data then some OP_SIG
  else if code = "OP_PUBKEY".data then some OP_PUBKEY
  else if code = "OP_PUBKEYHASH".data then some OP_PUBKEYHASH
  else if code = "OP_DATA".data then some OP_DATA
  else none

/-- ScriptTemplate::map_string_to_match_token of script_template.rs, with the
opcode name lookup passed as the parameter opFromStr: the numeric rule, the
opcode-name rule with the role remap, the OP_DATA operator rules tried in the
order >=, <=, =, >, <, then the hex push rule. -/
def ScriptTemplate.map_string_to_match_token (opFromStr : List Char → Option OpCodes)
    (code : List Char) : Except ScriptTemplateErrors MatchToken :=
  let numTok : Option MatchToken :=
    match parseUnsigned 256 code with
    | some v =>
      if v = 0 then some (.OpCode OP_0)
      else if v ≤ 16 then some (.OpCode (v + 80))
      else none
    | none => none
  match numTok with
  | some t => .ok t
  | none =>
    match opFromStr code with
    | some v =>
      if v = OP_SIG then .ok .Signature
      else if v = OP_PUBKEY then .ok .PublicKey
      else if v = OP_PUBKEYHASH then .ok .PublicKeyHash
      else if v = OP_DATA then .ok .AnyData
      else .ok (.OpCode v)
    | none =>
      if ("OP_DATA".data).isPrefixOf code then
        match splitOnceChars (">=".data) code with
        | some pr =>
          match parseUnsigned usizeBound pr.2 with
          | some len => .ok (.Data len .GreaterThanOrEquals)
          | none => .error (.OpDataParse code)
        | none =>
          match splitOnceChars ("<=".data) code with
          | some pr =>
            match parseUnsigned usizeBound pr.2 with
            | some len => .ok (.Data len .LessThanOrEquals)
            | none => .error (.OpDataParse code)
          | none =>
            match splitOnceChars ("=".data) code with
            | some pr =>
              match parseUnsigned usizeBound pr.2 with
              | some len => .ok (.Data len .Equals)
              | none => .error (.OpDataParse code)
            | none =>
              match splitOnceChars (">".data) code with
              | some pr =>
                match parseUnsigned usizeBound pr.2 with
                | some len => .ok (.Data len .GreaterThan)
                | none => .error (.OpDataParse code)
              | none =>
                match splitOnceChars ("<".data) code with
                | some pr =>
                  match parseUnsigned usizeBound pr.2 with
                  | some len => .ok (.Data len .LessThan)
                  | none => .error (.OpDataParse code)
                | none => hexTokenOf code
      else hexTokenOf code

/-- The short-circuiting collect over the mapped tokens of a template string. -/
def mapTokensList (opFromStr : List Char → Option OpCodes) :
    List (List Char) → Except ScriptTemplateErrors (List MatchToken)
  | [] => .ok []
  | c :: rest =>
    match ScriptTemplate.map_string_to_match_token opFromStr c with
    | .error e => .error e
    | .ok t =>
      match mapTokensList opFromStr rest with
      | .error e => .error e
      | .ok ts => .ok (t :: ts)

/-- ScriptTemplate::from_asm_string_impl of script_template.rs: split the
assembly string on spaces and map every token. -/
def ScriptTemplate.from_asm_string_impl (opFromStr : List Char → Option OpCodes)
    (asm : List Char) : Except ScriptTemplateErrors ScriptTemplate :=
  match mapTokensList opFromStr (splitChar ' ' asm) with
  | .error e => .error e
  | .ok ts => .ok ⟨ts⟩

/-- A list is a prefix of itself extended by anything, for the boolean check. -/
theorem isPrefixOf_append (l t : List Char) : l.isPrefixOf (l ++ t) = true := by
  induction l with
  | nil => cases t <;> rfl
  | cons c cs ih => simp [List.isPrefixOf, ih]

/-- A token whose first character is the letter O never parses as an unsigned
number. -/
theorem parseUnsigned_head_O (bound : Nat) (rest : List Char) :
    parseUnsigned bound ('O' :: rest) = none := by
  have h1 : stripPlus ('O' :: rest) = 'O' :: rest := by
    simp only [stripPlus]
    rw [if_neg (by decide)]
  have h2 : digitsValAux 0 ('O' :: rest) = none := by
    simp only [digitsValAux]
    rw [if_neg (by decide)]
  simp [parseUnsigned, h1, h2]

/-- C9: on a token that begins with the literal OP_DATA and is neither a
numeric token nor a recognized opcode name, the parser tries the operators in
the fixed order and commits to the first one found, parsing the suffix as an
unsigned integer: a token containing an occurrence of the two-character
operator made of greater-than then equals yields Data with the
GreaterThanOrEquals constraint, and one whose first matched operator is the
bare equals sign yields Data with the Equals constraint; in particular
"OP_DATA>=32" parses to Data 32 GreaterThanOrEquals, not GreaterThan, and
"OP_DATA=32" parses to Data 32 Equals. -/
theorem c9_op_data_operator_order (opFromStr : List Char → Option OpCodes)
    (tail : List Char) (code : List Char)
    (hcode : code = "OP_DATA".data ++ tail)
    (hop : opFromStr code = none) :
    (∀ pr n, splitOnceChars (">=".data) code = some pr →
      parseUnsigned usizeBound pr.2 = some n →
      ScriptTemplate.map_string_to_match_token opFromStr code =
        .ok (MatchToken.Data n DataLengthConstraints.GreaterThanOrEquals)) ∧
    (∀ pr n, splitOnceChars (">=".data) code = none →
      splitOnceChars ("<=".data) code = none →
      splitOnceChars ("=".data) code = some pr →
      parseUnsigned usizeBound pr.2 = some n →
      ScriptTemplate.map_string_to_match_token opFromStr code =
        .ok (MatchToken.Data n DataLengthConstraints.Equals)) ∧
    ScriptTemplate.map_string_to_match_token opFromStrModel ("OP_DATA>=32".data) =
      .ok (MatchToken.Data 32 DataLengthConstraints.GreaterThanOrEquals) ∧
    ScriptTemplate.map_string_to_match_token opFromStrModel ("OP_DATA=32".data) =
      .ok (MatchToken.Data 32 DataLengthConstraints.Equals) := by
  subst hcode
  have hnum : parseUnsigned 256 ("OP_DATA".data ++ tail) = none :=
    parseUnsigned_head_O 256 ("P_DATA".data ++ tail)
  have hpre : ("OP_DATA".data).isPrefixOf ("OP_DATA".data ++ tail) = true :=
    isPrefixOf_append _ _
  refine ⟨?_, ?_, ?_, ?_⟩
  · intro pr n hs hp
    simp only [ScriptTemplate.map_string_to_match_token, hnum, hop, hpre, hs, hp,
      if_true]
  · intro pr n hge hle heq hp
    simp only [ScriptTemplate.map_string_to_match_token, hnum, hop, hpre, hge, hle,
      heq, hp, if_true]
  · rfl
  · rfl

/-- Witness for C9: the general GreaterThanOrEquals branch applied to the
concrete token "OP_DATA>=99" under the modelled opcode table. -/
theorem c9_witness :
    ScriptTemplate.map_string_to_match_token opFromStrModel ("OP_DATA>=99".data) =
      .ok (MatchToken.Data 99 DataLengthConstraints.GreaterThanOrEquals) :=
  (c9_op_data_operator_order opFromStrModel (">=99".data) ("OP_DATA>=99".data)
      (by decide) (by decide)).1 ("OP_DATA".data, "99".data) 99 (by decide) (by decide)

/-- Counterexample for C10: the empty template string does not fail with a
MalformedHex error; the empty token hex-decodes to the empty byte payload and
the call returns Ok of a single empty Push token. -/
theorem c10_counterexample :
    ScriptTemplate.from_asm_string_impl opFromStrModel "".data =
        .ok ⟨[MatchToken.Push []]⟩ ∧
      isErr (ScriptTemplate.from_asm_string_impl opFromStrModel "".data) = false :=
  ⟨rfl, rfl⟩

/-- C10 (amended): applied to the empty string, from_asm_string processes
exactly one token, the empty token, which falls through the numeric,
opcode-name and OP_DATA rules to the hex-decode rule; there the empty token
decodes to an empty payload, so the call returns Ok of the one-token template
Push of no bytes rather than an error. -/
theorem c10_empty_template_hex_ok (opFromStr : List Char → Option OpCodes)
    (hop : opFromStr [] = none) :
    ScriptTemplate.from_asm_string_impl opFromStr [] = .ok ⟨[MatchToken.Push []]⟩ := by
  have h1 : ScriptTemplate.map_string_to_match_token opFromStr [] =
      .ok (MatchToken.Push []) := by
    simp only [ScriptTemplate.map_string_to_match_token, hop]
    rfl
  unfold ScriptTemplate.from_asm_string_impl
  rw [show splitChar ' ' ([] : List Char) = [[]] from rfl]
  have h3 : mapTokensList opFromStr [[]] = .ok [MatchToken.Push []] := by
    simp only [mapTokensList, h1]
  rw [h3]

/-- Witness for C10 (amended): instantiated at a lookup that recognizes no
name, the empty template string parses to the one-token Push template. -/
theorem c10_witness :
    ScriptTemplate.from_asm_string_impl (fun _ => (none : Option OpCodes)) [] =
      .ok ⟨[MatchToken.Push []]⟩ :=
  c10_empty_template_hex_ok (fun _ => none) rfl
